import Mathlib

/-!
Verification of the YAML-to-JSON AST conversion core (monaco-yaml,
`src/languageservice/parser/yamlParser.ts`).

The raw node model, the AST builder `recursivelyBuildAst`, the diagnostic
conversion `createJSONDocument` and the custom-tag registration of `parse`
are embedded from the source.  Collaborator code that is not part of the
staged sources (the `jsonParser` AST node constructors, the
`yaml-ast-parser` scalar classifier, `scalar-type`'s boolean parser and the
js-yaml schema registry) is modelled from the specification; each such
definition carries a doc comment starting with `Modelled from the spec:`.

Source positions are modelled as `Int` (JavaScript numbers used as byte
offsets; subtraction may in principle be negative and is kept exact).
Object identity of AST nodes, which the source uses for the `parent`
back-references, is modelled by the access path of a node from the root of
one builder invocation: the builder threads the path of the node being
built, and a parent reference is `some p` where `p` is the path of the
node that was passed as the `parent` argument (`none` models the `null`
parent of the root call).
-/

/-- Raw YAML node, the input shape of `recursivelyBuildAst`
(`Yaml.YAMLNode` of the yaml-ast-parser collaborator as the source consumes
it): every node carries `startPosition`/`endPosition`; a map holds its
mapping entries, a mapping a key node and an optional value node, a
sequence a list of items where `none` is the absence marker
(`item === null`), a scalar its literal text and the `plainScalar` flag, an
anchor reference its (possibly unresolved) target, an include reference its
raw text.  `unknown` — Modelled from the spec: the raw node shape is owned
by the external parser (§3) and §4.3 allows a top-level raw node that
"fails to resolve to any AST node"; the source's `switch (node.kind)` has
an implicit default branch returning no node, which is reachable exactly
for a raw value whose `kind` is none of the six handled kinds.  `unknown`
stands for such a raw value. -/
inductive YamlNode : Type where
  | map (startPosition endPosition : Int) (mappings : List YamlNode)
  | mapping (startPosition endPosition : Int) (key : YamlNode) (value : Option YamlNode)
  | seq (startPosition endPosition : Int) (items : List (Option YamlNode))
  | scalar (startPosition endPosition : Int) (value : String) (plainScalar : Bool)
  | anchorRef (startPosition endPosition : Int) (value : Option YamlNode)
  | includeRef (startPosition endPosition : Int) (value : String)
  | unknown (startPosition endPosition : Int)
deriving Repr

/-- The `startPosition` field every raw node carries. -/
def YamlNode.startPosition : YamlNode → Int
  | .map s _ _ => s
  | .mapping s _ _ _ => s
  | .seq s _ _ => s
  | .scalar s _ _ _ => s
  | .anchorRef s _ _ => s
  | .includeRef s _ _ => s
  | .unknown s _ => s

/-- The `endPosition` field every raw node carries. -/
def YamlNode.endPosition : YamlNode → Int
  | .map _ e _ => e
  | .mapping _ e _ _ => e
  | .seq _ e _ => e
  | .scalar _ e _ _ => e
  | .anchorRef _ e _ => e
  | .includeRef _ e _ => e
  | .unknown _ e => e

/-- The `value` field of a raw node as the key coercion reads it
(`keyNode.value = key.value`): the literal text of a scalar or include
reference, nothing (`undefined`) for the other kinds. -/
def YamlNode.textValue : YamlNode → Option String
  | .scalar _ _ v _ => some v
  | .includeRef _ _ v => some v
  | _ => none

/-- A parent back-reference: `none` is the `null` parent of the root call,
`some p` designates the node built at path `p` of the same invocation. -/
abbrev ParentRef := Option (List Nat)

/-- Typed AST node (`ASTNode` of the jsonParser collaborator as the source
constructs it).  Modelled from the spec: every node has a non-owning
back-reference to its parent, a start offset and a length (§3); the
`jsonParser` node constructors are not part of the staged sources, so each
constructor here simply records the arguments given at its call site, the
length as `none` when the call site passes no length argument.  An object
holds its `properties`, a property its `keyNode` and `valueNode`, an array
its `items`; a list/value entry is an `Option` because the source pushes
the result of a recursive build unchecked, which is `undefined` for a raw
child of unhandled kind. -/
inductive AstNode : Type where
  | object (parent : ParentRef) (offset : Int) (length : Option Int)
      (properties : List (Option AstNode))
  | property (parent : ParentRef) (offset : Int) (length : Option Int)
      (keyNode : AstNode) (valueNode : Option AstNode)
  | array (parent : ParentRef) (offset : Int) (length : Option Int)
      (items : List (Option AstNode))
  | str (parent : ParentRef) (offset : Int) (length : Option Int)
      (value : Option String)
  | boolean (parent : ParentRef) (value : Bool) (offset : Int) (length : Option Int)
  | number (parent : ParentRef) (offset : Int) (length : Option Int)
      (value : Option Int) (isInteger : Bool)
  | null (parent : ParentRef) (offset : Int) (length : Option Int)
deriving Repr

/-- The parent back-reference of an AST node. -/
def AstNode.parentRef : AstNode → ParentRef
  | .object p _ _ _ => p
  | .property p _ _ _ _ => p
  | .array p _ _ _ => p
  | .str p _ _ _ => p
  | .boolean p _ _ _ => p
  | .number p _ _ _ _ => p
  | .null p _ _ => p

/-- The start offset of an AST node. -/
def AstNode.offset : AstNode → Int
  | .object _ o _ _ => o
  | .property _ o _ _ _ => o
  | .array _ o _ _ => o
  | .str _ o _ _ => o
  | .boolean _ _ o _ => o
  | .number _ o _ _ _ => o
  | .null _ o _ => o

/-- The length of an AST node; `none` when the constructing call passed no
length argument. -/
def AstNode.lengthField : AstNode → Option Int
  | .object _ _ l _ => l
  | .property _ _ l _ _ => l
  | .array _ _ l _ => l
  | .str _ _ l _ => l
  | .boolean _ _ _ l => l
  | .number _ _ l _ _ => l
  | .null _ _ l => l

/-- Whether an AST node is a `Null` node. -/
def AstNode.isNullNode : AstNode → Bool
  | .null _ _ _ => true
  | _ => false

/-- The child slots a composite AST node holds: the properties of an
object, the key and value of a property, the items of an array; leaves
hold none. -/
def AstNode.childSlots : AstNode → List (Option AstNode)
  | .object _ _ _ props => props
  | .property _ _ _ k v => [some k, v]
  | .array _ _ _ items => items
  | _ => []

/-- Source list `possibleBooleanValues` of the scalar compatibility patch
(the sixteen YAML-1.1-style boolean tokens). -/
def possibleBooleanValues : List String :=
  ["y", "Y", "yes", "Yes", "YES", "n", "N", "no", "No", "NO", "on", "On", "ON", "off", "Off", "OFF"]

/-- Modelled from the spec: the boolean-literal rule of §4.4 — the
case-insensitive `true`/`false` pair plus the YAML-1.1 tokens; this models
both `parseYamlBoolean` imported from `scalar-type` (used by the
compatibility patch) and `Yaml.parseYamlBoolean` of the collaborator (used
by the default `bool` branch), neither of which is among the staged
sources.  The affirmative literals parse to `true`, everything else to
`false`. -/
def parseYamlBoolean (input : String) : Bool :=
  ["true", "True", "TRUE", "y", "Y", "yes", "Yes", "YES", "on", "On", "ON"].contains input

/-- Classification a raw scalar receives (`Yaml.ScalarType`). -/
inductive ScalarType : Type where
  | null | bool | int | float | string
deriving Repr, DecidableEq

/-- Modelled from the spec: the null literals of the default dispatch
(§4.4, "`~` or empty classifies as Null"). -/
def isNullLiteral (s : String) : Bool :=
  ["null", "Null", "NULL", "~", ""].contains s

/-- Modelled from the spec: case-insensitive `true`/`false` (§4.4). -/
def isBoolLiteral (s : String) : Bool :=
  ["true", "false"].contains s.toLower

/-- Drop one leading sign character. -/
def stripSign : List Char → List Char
  | c :: rest => if c = '+' || c = '-' then rest else c :: rest
  | [] => []

/-- Modelled from the spec: the YAML integer grammar of §4.4 — optional
sign, then a decimal, `0x` hexadecimal or `0o` octal digit run with
underscore separators. -/
def isIntLiteral (s : String) : Bool :=
  match stripSign s.toList with
  | '0' :: 'x' :: rest =>
      rest.any (fun c => c ≠ '_')
        && rest.all (fun c => c.isDigit || ('a' ≤ c && c ≤ 'f') || ('A' ≤ c && c ≤ 'F') || c = '_')
  | '0' :: 'o' :: rest =>
      rest.any (fun c => c ≠ '_') && rest.all (fun c => ('0' ≤ c && c ≤ '7') || c = '_')
  | cs => cs.any Char.isDigit && cs.all (fun c => c.isDigit || c = '_')

/-- Split a character list at the first exponent marker. -/
def splitOnExp (cs : List Char) : List Char × Option (List Char) :=
  match cs.span (fun c => c ≠ 'e' && c ≠ 'E') with
  | (m, []) => (m, none)
  | (m, _ :: ex) => (m, some ex)

/-- A float mantissa: digits with at most one decimal point, at least one
digit. -/
def isMantissa (cs : List Char) : Bool :=
  cs.any Char.isDigit && cs.all (fun c => c.isDigit || c = '.')
    && (cs.filter (fun c => c = '.')).length ≤ 1

/-- A float exponent: optional sign, then at least one digit. -/
def isExpPart (cs : List Char) : Bool :=
  let body := stripSign cs
  !body.isEmpty && body.all Char.isDigit

/-- Modelled from the spec: the YAML float grammar of §4.4 — optional sign,
then a decimal literal with a decimal point or an exponent, or one of the
`.inf`/`.nan` forms. -/
def isFloatLiteral (s : String) : Bool :=
  let cs := stripSign s.toList
  if cs = ".inf".toList || cs = ".Inf".toList || cs = ".INF".toList
      || cs = ".nan".toList || cs = ".NaN".toList || cs = ".NAN".toList then true
  else
    match splitOnExp cs with
    | (m, none) => isMantissa m && m.contains '.'
    | (m, some ex) => isMantissa m && isExpPart ex

/-- Modelled from the spec: `Yaml.determineScalarType` of the yaml-ast-parser
collaborator, per §4.4 step 2 — dispatch on the literal text: null
literals, then case-insensitive `true`/`false`, then the integer grammar,
then the float grammar, else string.  In particular the YAML-1.1 tokens
such as `yes`/`on` fall through to string, which is exactly the
collaborator default the source's compatibility patch works around. -/
def determineScalarType (value : String) : ScalarType :=
  if isNullLiteral value then .null
  else if isBoolLiteral value then .bool
  else if isIntLiteral value then .int
  else if isFloatLiteral value then .float
  else .string

/-- Accumulate one digit run in the given base, skipping underscores. -/
def parseDigits (base : Nat) (cs : List Char) : Option Nat :=
  cs.foldl
    (fun acc c =>
      if c = '_' then acc
      else
        match acc with
        | none => none
        | some n =>
          let d :=
            if c.isDigit then c.toNat - '0'.toNat
            else if 'a' ≤ c && c ≤ 'f' then c.toNat - 'a'.toNat + 10
            else if 'A' ≤ c && c ≤ 'F' then c.toNat - 'A'.toNat + 10
            else base
          if d < base then some (n * base + d) else none)
    (some 0)

/-- Modelled from the spec: `Yaml.parseYamlInteger` of the collaborator,
per the §4.4 integer rule — optional sign, decimal/`0x`/`0o` digit run with
underscore separators; `none` when the text is no integer literal. -/
def parseYamlInteger (s : String) : Option Int :=
  let cs := s.toList
  let negative := cs.head? = some '-'
  let body := stripSign cs
  let baseDigits : Nat × List Char :=
    match body with
    | '0' :: 'x' :: r => (16, r)
    | '0' :: 'o' :: r => (8, r)
    | r => (10, r)
  (parseDigits baseDigits.1 baseDigits.2).map
    (fun n => if negative then -(n : Int) else (n : Int))

mutual

/-- The body of `recursivelyBuildAst` for a non-null raw node: the
`switch (node.kind)` dispatch.  `parent` is the designator the caller
passed for its `parent` argument; `path` is the path this node occupies in
the tree of the invocation (the instrumentation standing for the object
identity of the node under construction, which the source passes as
`result` to child builds).  Faithful details kept from the source: the
omitted-value `Null` of a mapping is constructed with the received
`parent` (not the property) and with no length argument; the absent-item
`Null` of a sequence is constructed with the received `parent` (not the
array) and with the sequence's span; the sequence loop's `count` starts at
0 and is never updated. -/
def buildNode (parent : ParentRef) (path : List Nat) (node : YamlNode) : Option AstNode :=
  match node with
  | .map s e mappings =>
      some (.object parent s (some (e - s)) (buildMappings path 0 mappings))
  | .mapping s e key value =>
      let keyNode : AstNode :=
        .str (some path) key.startPosition
          (some (key.endPosition - key.startPosition)) key.textValue
      let valueNode : Option AstNode :=
        match value with
        | some v => buildNode (some path) (path ++ [1]) v
        | none => some (.null parent s none)
      some (.property parent key.startPosition (some (e - key.startPosition)) keyNode valueNode)
  | .seq s e items =>
      some (.array parent s (some (e - s))
        (buildSeqItems parent path s e 0 (items.length : Int) 0 items))
  | .scalar s e value plain =>
      let type := determineScalarType value
      if plain && possibleBooleanValues.contains value then
        some (.boolean parent (parseYamlBoolean value) s (some (e - s)))
      else
        match type with
        | .null => some (.null parent s (some (e - s)))
        | .bool => some (.boolean parent (parseYamlBoolean value) s (some (e - s)))
        | .int => some (.number parent s (some (e - s)) (parseYamlInteger value) true)
        | .float => some (.number parent s (some (e - s)) none false)
        | .string => some (.str parent s (some (e - s)) (some value))
  | .anchorRef s e value =>
      -- `recursivelyBuildAst(parent, instance.value) || new NullASTNodeImpl(...)`:
      -- the recursive build of the (possibly null) target, with the `Null`
      -- fallback when it yields nothing.
      let inner : Option AstNode :=
        match value with
        | some v => buildNode parent path v
        | none => none
      some (inner.getD (.null parent s (some (e - s))))
  | .includeRef s e value =>
      some (.str parent s (some (e - s)) (some value))
  | .unknown _ _ => none

/-- The `for (const mapping of instance.mappings)` loop of the MAP case:
each entry is built with the object under construction as parent and
pushed in order.  `i` is the path index of the next entry. -/
def buildMappings (path : List Nat) (i : Nat) (mappings : List YamlNode) :
    List (Option AstNode) :=
  match mappings with
  | [] => []
  | m :: rest => buildNode (some path) (path ++ [i]) m :: buildMappings path (i + 1) rest

/-- The `for (const item of instance.items)` loop of the SEQ case.  `s`,
`e` are the sequence's span, `len` its item count; `count` is the loop's
counter variable, initialized to 0 and — as in the source — never updated,
so it is passed through unchanged; `i` is the path index of the next item
(the slot the pushed node occupies).  A `none` item while
`count = len - 1` breaks out of the loop; any other `none` item is pushed
as a `Null` with the received `parent` and the sequence's span; any other
item is built recursively with the array under construction as parent. -/
def buildSeqItems (parent : ParentRef) (path : List Nat) (s e count len : Int) (i : Nat)
    (items : List (Option YamlNode)) : List (Option AstNode) :=
  match items with
  | [] => []
  | item :: rest =>
    if item.isNone ∧ count = len - 1 then []
    else
      (match item with
       | none => some (.null parent s (some (e - s)))
       | some m => buildNode (some path) (path ++ [i]) m)
      :: buildSeqItems parent path s e count len (i + 1) rest

end

/-- `recursivelyBuildAst(parent, node)`: the guard `if (!node) return;`
followed by the kind dispatch (`buildNode`).  The extra `path` argument is
the identity instrumentation described at `buildNode`. -/
def recursivelyBuildAst (parent : ParentRef) (path : List Nat) (node : Option YamlNode) :
    Option AstNode :=
  match node with
  | none => none
  | some n => buildNode parent path n

/-- Error code attached to produced diagnostics (`ErrorCode.Undefined`). -/
inductive ErrorCode : Type where
  | undefined
deriving Repr, DecidableEq

/-- Position mark of a raw diagnostic (`e.mark`): a position and a column,
both non-negative. -/
structure YamlMark where
  position : Nat
  column : Nat
deriving Repr, DecidableEq

/-- Raw diagnostic entry of one document (`Yaml.Error` as the source
consumes it): a reason string, the "is warning" flag and a mark. -/
structure YamlError where
  reason : String
  isWarning : Bool
  mark : YamlMark
deriving Repr, DecidableEq

/-- Produced diagnostic: a message, a start/end location and the generic
undefined code.  The source stores the code of a converted parser error
inside its location object and the structural error's beside it; the
nesting is flattened here, which none of the claims distinguish. -/
structure Diagnostic where
  message : String
  locStart : Int
  locEnd : Int
  code : ErrorCode
deriving Repr, DecidableEq

/-- `convertError(e)`: the message is the reason rendered as a string, the
location runs from `mark.position` to `mark.position + mark.column`. -/
def convertError (e : YamlError) : Diagnostic :=
  { message := e.reason
    locStart := (e.mark.position : Int)
    locEnd := ((e.mark.position + e.mark.column : Nat) : Int)
    code := .undefined }

/-- JavaScript's `text.substring(start, end)` for non-negative indices:
the smaller index starts, indices beyond the length clamp.  Modelled on
characters; the source operates on UTF-16 code units, which agree on
ASCII. -/
def jsSubstring (text : String) (a b : Nat) : String :=
  (text.drop (min a b)).take (max a b - min a b)

/-- The constant `duplicateKeyReason`. -/
def duplicateKeyReason : String := "duplicate key"

/-- `isDuplicateAndNotMergeKey(error, yamlText)`: `false` exactly when the
reason is `"duplicate key"` and the document text between the converted
diagnostic's start and end (its mark's position and position plus column)
starts with `"<<"`; `true` otherwise. -/
def isDuplicateAndNotMergeKey (error : YamlError) (yamlText : String) : Bool :=
  let errorStart := error.mark.position
  let errorEnd := error.mark.position + error.mark.column
  if error.reason = duplicateKeyReason
      ∧ (jsSubstring yamlText errorStart errorEnd).startsWith "<<" then
    false
  else true

/-- The error filter of `createJSONDocument`:
`e => e.reason !== duplicateKeyReason && !e.isWarning`. -/
def errorFilter (e : YamlError) : Bool :=
  e.reason != duplicateKeyReason && !e.isWarning

/-- The warning filter of `createJSONDocument`:
`e => (e.reason === duplicateKeyReason && isDuplicateAndNotMergeKey(e, text)) || e.isWarning`. -/
def warningFilter (text : String) (e : YamlError) : Bool :=
  (e.reason == duplicateKeyReason && isDuplicateAndNotMergeKey e text) || e.isWarning

/-- `SingleYAMLDocument`: the optional root, the error and warning lists
and the line-start table the document is constructed with. -/
structure SingleYAMLDocument where
  root : Option AstNode
  errors : List Diagnostic
  warnings : List Diagnostic
  startPositions : List Nat
deriving Repr

/-- `createJSONDocument(yamlDoc, startPositions, text)`.  The raw
document's own diagnostic list `yamlDoc.errors` is the separate argument
`docErrors` (the raw node model does not carry the collaborator's per-node
error array; only the top-level node's is ever read).  The root is built
with a `null` parent; when no root resolves, the structural error (message
"Expected a YAML object, array or literal", the localize call's default
text, spanning the raw document) is pushed before anything else; then the
filtered errors and the filtered warnings are appended in order. -/
def createJSONDocument (yamlDoc : YamlNode) (docErrors : List YamlError)
    (startPositions : List Nat) (text : String) : SingleYAMLDocument :=
  let root := recursivelyBuildAst none [] (some yamlDoc)
  let structural : List Diagnostic :=
    match root with
    | none =>
        [{ message := "Expected a YAML object, array or literal"
           locStart := yamlDoc.startPosition
           locEnd := yamlDoc.endPosition
           code := .undefined }]
    | some _ => []
  { root := root
    errors := structural ++ (docErrors.filter errorFilter).map convertError
    warnings := (docErrors.filter (warningFilter text)).map convertError
    startPositions := startPositions }

/-- A compiled tag type (js-yaml's `new Type(name, { kind })` as the
source constructs it). -/
structure YamlType where
  tagName : String
  kind : String
deriving Repr, DecidableEq

/-- The tag name of a custom tag spec: `tag.split(' ')[0]`. -/
def customTagName (tag : String) : String :=
  (tag.splitOn " ").headD ""

/-- The node kind of a custom tag spec: `tag.split(' ')[1] || 'scalar'`
(JavaScript `||`: an absent or empty second piece falls back to
`"scalar"`). -/
def customTagKind (tag : String) : String :=
  match (tag.splitOn " ").drop 1 with
  | [] => "scalar"
  | k :: _ => if k = "" then "scalar" else k

/-- Modelled from the spec: the schema's internal compiled-type registry
(§4.1).  js-yaml's `Schema`/`Type` are an external collaborator, so the
registration state is modelled as the finite map `compiledTypeMap` from
tag name to compiled type; per §4.1 construction alone does not make a
custom tag resolvable, so the map `Schema.create` produces is an arbitrary
`base`.  `registerCustomTags` is `parse`'s second, explicit mutation step,
`schemaWithAdditionalTags.compiledTypeMap[typeInfo[0]] = new Type(typeInfo[0], { kind: typeInfo[1] || 'scalar' })`,
performed for each custom tag in order. -/
def registerCustomTags (base : String → Option YamlType) (customTags : List String) :
    String → Option YamlType :=
  customTags.foldl
    (fun m tag => fun n =>
      if n = customTagName tag then some ⟨customTagName tag, customTagKind tag⟩ else m n)
    base

/-- The value slot of a property node, nothing for any other node. -/
def AstNode.propertyValue : AstNode → Option AstNode
  | .property _ _ _ _ v => v
  | _ => none

/-- The value node of the first property of an object root: the navigation
used by the concrete counterexamples below. -/
def firstPropertyValue (r : Option AstNode) : Option AstNode :=
  r.bind fun a =>
    match a with
    | .object _ _ _ (some p :: _) => p.propertyValue
    | _ => none

/-- Item slot `k` of an array node (the slot's content, nothing when the
node is no array or the slot is empty or absent). -/
def arrayItemAt (k : Nat) (r : Option AstNode) : Option AstNode :=
  r.bind fun a =>
    match a with
    | .array _ _ _ items => items.getD k none
    | _ => none

/-- Whether a raw item list consists of exactly one absence marker. -/
def soleAbsenceMarker : List (Option YamlNode) → Bool
  | [none] => true
  | _ => false


/-- When the loop's counter (which the source never updates) differs from
`len - 1`, the break test cannot fire, so the sequence loop pushes one
node per item in order. -/
theorem buildSeqItems_no_break (parent : ParentRef) (path : List Nat) (s e count len : Int)
    (h : count ≠ len - 1) :
    ∀ (items : List (Option YamlNode)) (i : Nat),
      buildSeqItems parent path s e count len i items =
        (items.enumFrom i).map (fun ji =>
          match ji.2 with
          | none => some (.null parent s (some (e - s)))
          | some m => buildNode (some path) (path ++ [ji.1]) m) := by
  intro items
  induction items with
  | nil => intro i; rw [buildSeqItems.eq_def]; simp [List.enumFrom]
  | cons item rest ih =>
    intro i
    rw [buildSeqItems.eq_def]
    simp only [List.enumFrom, List.map_cons]
    rw [if_neg (by rintro ⟨_, hcount⟩; exact h hcount)]
    simp [ih]

/-- Every node the builder constructs stores, as its parent reference, the
designator the constructing call received.  `k` bounds the node size for
the induction through anchor chains. -/
theorem buildNode_parentRef_aux :
    ∀ (k : Nat) (n : YamlNode), sizeOf n ≤ k → ∀ (parent : ParentRef) (path : List Nat)
      (b : AstNode), buildNode parent path n = some b → b.parentRef = parent := by
  intro k
  induction k with
  | zero =>
    intro n hn
    exfalso
    cases n <;> simp at hn
  | succ k ih =>
    intro n hn parent path b hb
    rw [buildNode.eq_def] at hb
    cases n with
    | map s e ms =>
      simp only [Option.some.injEq] at hb
      subst hb; rfl
    | mapping s e key value =>
      simp only [Option.some.injEq] at hb
      subst hb; rfl
    | seq s e items =>
      simp only [Option.some.injEq] at hb
      subst hb; rfl
    | scalar s e v plain =>
      simp only at hb
      split at hb
      · simp only [Option.some.injEq] at hb; subst hb; rfl
      · split at hb <;> simp only [Option.some.injEq] at hb <;> subst hb <;> rfl
    | anchorRef s e value =>
      cases value with
      | none =>
        have hb' : AstNode.null parent s (some (e - s)) = b := Option.some.inj hb
        subst hb'; rfl
      | some v =>
        have hb' : (buildNode parent path v).getD (.null parent s (some (e - s))) = b :=
          Option.some.inj hb
        cases hv : buildNode parent path v with
        | none =>
          rw [hv] at hb'
          simp only [Option.getD] at hb'; subst hb'; rfl
        | some r =>
          rw [hv] at hb'
          simp only [Option.getD] at hb'; subst hb'
          refine ih v ?_ parent path r hv
          simp at hn; omega
    | includeRef s e v =>
      simp only [Option.some.injEq] at hb
      subst hb; rfl
    | unknown s e =>
      simp at hb

/-- The parent reference of any node `recursivelyBuildAst` returns is the
`parent` argument of the call. -/
theorem recursivelyBuildAst_parentRef (parent : ParentRef) (path : List Nat)
    (node : Option YamlNode) (b : AstNode)
    (hb : recursivelyBuildAst parent path node = some b) : b.parentRef = parent := by
  cases node with
  | none => simp [recursivelyBuildAst] at hb
  | some n =>
    simp only [recursivelyBuildAst] at hb
    exact buildNode_parentRef_aux (sizeOf n) n le_rfl parent path b hb

/-- Every slot the MAP loop pushes is the result of a child build whose
parent argument designates the object under construction. -/
theorem buildMappings_mem :
    ∀ (ms : List YamlNode) (path : List Nat) (i : Nat) (x : Option AstNode),
      x ∈ buildMappings path i ms →
        ∃ j m, x = buildNode (some path) (path ++ [j]) m := by
  intro ms
  induction ms with
  | nil =>
    intro path i x hx
    rw [buildMappings.eq_def] at hx
    simp at hx
  | cons m rest ih =>
    intro path i x hx
    rw [buildMappings.eq_def] at hx
    rcases List.mem_cons.mp hx with hx | hx
    · exact ⟨i, m, hx⟩
    · exact ih path (i + 1) x hx

/-- Every slot the SEQ loop pushes is either the absent-item `Null`
(carrying the received parent and the sequence's span) or the result of a
child build whose parent argument designates the array under
construction. -/
theorem buildSeqItems_mem :
    ∀ (items : List (Option YamlNode)) (parent : ParentRef) (path : List Nat)
      (s e count len : Int) (i : Nat) (x : Option AstNode),
      x ∈ buildSeqItems parent path s e count len i items →
        x = some (.null parent s (some (e - s)))
          ∨ ∃ j m, x = buildNode (some path) (path ++ [j]) m := by
  intro items
  induction items with
  | nil =>
    intro parent path s e count len i x hx
    rw [buildSeqItems.eq_def] at hx
    simp at hx
  | cons item rest ih =>
    intro parent path s e count len i x hx
    cases item with
    | none =>
      rw [buildSeqItems.eq_2] at hx
      by_cases hc : (none : Option YamlNode).isNone = true ∧ count = len - 1
      · rw [if_pos hc] at hx
        simp at hx
      · rw [if_neg hc] at hx
        rcases List.mem_cons.mp hx with hx | hx
        · exact Or.inl hx
        · exact ih parent path s e count len (i + 1) x hx
    | some m =>
      rw [buildSeqItems.eq_3] at hx
      by_cases hc : (some m).isNone = true ∧ count = len - 1
      · rw [if_pos hc] at hx
        simp at hx
      · rw [if_neg hc] at hx
        rcases List.mem_cons.mp hx with hx | hx
        · exact Or.inr ⟨i, m, hx⟩
        · exact ih parent path s e count len (i + 1) x hx

/-- C8: for every raw Map node and every raw Sequence node, the produced
Object or Array AST node's span equals the half-open interval
`[start, end)` of the originating raw node — offset equal to the raw
start, length equal to raw end minus raw start — never extending beyond
it. -/
theorem c8_object_array_spans (parent : ParentRef) (path : List Nat) (s e : Int)
    (mappings : List YamlNode) (items : List (Option YamlNode)) :
    ((recursivelyBuildAst parent path (some (.map s e mappings))).map AstNode.offset
        = some s
      ∧ (recursivelyBuildAst parent path (some (.map s e mappings))).map AstNode.lengthField
        = some (some (e - s)))
    ∧ ((recursivelyBuildAst parent path (some (.seq s e items))).map AstNode.offset
        = some s
      ∧ (recursivelyBuildAst parent path (some (.seq s e items))).map AstNode.lengthField
        = some (some (e - s))) := by
  refine ⟨⟨?_, ?_⟩, ⟨?_, ?_⟩⟩ <;>
    simp [recursivelyBuildAst, buildNode.eq_def, AstNode.offset, AstNode.lengthField]

/-- C9: listing the same custom tag twice in `customTags` produces the
same compiled-type registry as listing it once — the second registration
overwrites the first with the identical compiled type, so the schema
registration state (and with it the classification behavior it drives) is
unchanged. -/
theorem c9_custom_tag_registration_idempotent (base : String → Option YamlType)
    (tag : String) (rest : List String) :
    registerCustomTags base (tag :: tag :: rest) = registerCustomTags base (tag :: rest) := by
  simp only [registerCustomTags, List.foldl]
  congr 1
  funext n
  by_cases h : n = customTagName tag <;> simp [h]

/-- C10: no raw diagnostic entry passes both the error filter and the
warning filter, so each entry of one document's diagnostic list lands in
exactly one of error, warning or dropped. -/
theorem c10_error_warning_disjoint (text : String) (e : YamlError) :
    (errorFilter e && warningFilter text e) = false := by
  simp only [errorFilter, warningFilter]
  by_cases h : e.reason = duplicateKeyReason
  · simp [h]
  · have hb : (e.reason == duplicateKeyReason) = false := by
      simpa using h
    cases hw : e.isWarning <;> simp [hb, hw]

/-- C6: every diagnostic entry that is not a merge-key duplicate is
classified as the claim states — a "duplicate key" entry becomes a warning
and no error; an entry flagged "is warning" becomes a warning and no
error regardless of reason; every remaining entry becomes an error and no
warning — and the concrete one-normal-duplicate input produces exactly one
warning and zero errors with that reason. -/
theorem c6_nonmerge_classification (text : String) (e : YamlError)
    (h : ¬(e.reason = duplicateKeyReason ∧
      (jsSubstring text e.mark.position (e.mark.position + e.mark.column)).startsWith "<<"
        = true)) :
    (e.reason = duplicateKeyReason → warningFilter text e = true ∧ errorFilter e = false)
    ∧ (e.isWarning = true → warningFilter text e = true ∧ errorFilter e = false)
    ∧ (e.reason ≠ duplicateKeyReason → e.isWarning = false →
        errorFilter e = true ∧ warningFilter text e = false)
    ∧ (((createJSONDocument (.map 0 10 [])
          [⟨duplicateKeyReason, false, ⟨5, 1⟩⟩] [] "a: 1\na: 2\n").warnings.filter
            (fun d => d.message == duplicateKeyReason)).length = 1
        ∧ ((createJSONDocument (.map 0 10 [])
          [⟨duplicateKeyReason, false, ⟨5, 1⟩⟩] [] "a: 1\na: 2\n").errors.filter
            (fun d => d.message == duplicateKeyReason)).length = 0) := by
  have hd : isDuplicateAndNotMergeKey e text = true := by
    simp only [isDuplicateAndNotMergeKey]
    exact if_neg h
  refine ⟨?_, ?_, ?_, by with_unfolding_all rfl, by with_unfolding_all rfl⟩
  · intro hr
    constructor
    · simp [warningFilter, hr, hd]
    · simp [errorFilter, hr]
  · intro hw
    constructor
    · simp [warningFilter, hw]
    · simp [errorFilter, hw]
  · intro hr hw
    have hb : (e.reason == duplicateKeyReason) = false := by simpa using hr
    constructor
    · simp [errorFilter, bne, hb, hw]
    · simp [warningFilter, hb, hw]

/-- C6 witness: the normal duplicate-key entry of the sample input is a
warning and not an error. -/
theorem c6_nonmerge_classification_witness :
    warningFilter "a: 1\na: 2\n" ⟨duplicateKeyReason, false, ⟨5, 1⟩⟩ = true
    ∧ errorFilter ⟨duplicateKeyReason, false, ⟨5, 1⟩⟩ = false :=
  (c6_nonmerge_classification "a: 1\na: 2\n" ⟨duplicateKeyReason, false, ⟨5, 1⟩⟩
    (by
      rintro ⟨-, h⟩
      rw [show (jsSubstring "a: 1\na: 2\n" 5 (5 + 1)).startsWith "<<" = false from by
        with_unfolding_all rfl] at h
      exact Bool.false_ne_true h)).1 rfl

/-- C2 (amended): a "duplicate key" entry whose source text at the
diagnostic's location begins with `"<<"` never reaches the error list, and
the warning filter reduces to the entry's own "is warning" flag — so the
entry is dropped entirely exactly when that flag is unset, while a flagged
entry is still emitted as a warning. -/
theorem c2_amended_merge_key_drop (text : String) (e : YamlError)
    (h1 : e.reason = duplicateKeyReason)
    (h2 : (jsSubstring text e.mark.position (e.mark.position + e.mark.column)).startsWith "<<"
      = true) :
    errorFilter e = false ∧ warningFilter text e = e.isWarning := by
  have hd : isDuplicateAndNotMergeKey e text = false := by
    simp only [isDuplicateAndNotMergeKey]
    exact if_pos ⟨h1, h2⟩
  constructor
  · simp [errorFilter, h1]
  · simp [warningFilter, h1, hd]

/-- C2 witness: an unflagged merge-key duplicate entry of the sample
merge-key input passes neither filter. -/
theorem c2_amended_merge_key_drop_witness :
    errorFilter ⟨duplicateKeyReason, false, ⟨0, 2⟩⟩ = false
    ∧ warningFilter "<<: *a\n<<: *b\n" ⟨duplicateKeyReason, false, ⟨0, 2⟩⟩ = false :=
  c2_amended_merge_key_drop "<<: *a\n<<: *b\n" ⟨duplicateKeyReason, false, ⟨0, 2⟩⟩ rfl
    (by with_unfolding_all rfl)

/-- C2 is false as stated: a merge-key duplicate entry whose "is warning"
flag is set is not dropped entirely — it appears in the document's warning
list (while the error list stays empty). -/
theorem c2_counterexample_flagged_merge_key_warns :
    (createJSONDocument (.map 0 14 []) [⟨duplicateKeyReason, true, ⟨0, 2⟩⟩] []
        "<<: *a\n<<: *b\n").warnings
      = [⟨duplicateKeyReason, 0, 2, .undefined⟩]
    ∧ (createJSONDocument (.map 0 14 []) [⟨duplicateKeyReason, true, ⟨0, 2⟩⟩] []
        "<<: *a\n<<: *b\n").errors = [] := by
  exact ⟨by with_unfolding_all rfl, by with_unfolding_all rfl⟩

/-- C3 (amended): the Null synthesized for a raw Mapping without value
starts at the mapping's start position but records no length — the
constructing call passes no length argument — and carries the mapping
call's received parent. -/
theorem c3_amended_null_value_span (parent : ParentRef) (path : List Nat) (s e : Int)
    (key : YamlNode) :
    (recursivelyBuildAst parent path (some (.mapping s e key none))).bind
        AstNode.propertyValue
      = some (.null parent s none) := by
  simp [recursivelyBuildAst, buildNode.eq_def, AstNode.propertyValue]

/-- C3 is false as stated: for the omitted-value mapping spanning `[0, 4)`
the synthesized Null value node has no recorded length at all — in
particular not the mapping's extent `4` — rather than spanning the
mapping. -/
theorem c3_counterexample_null_value_no_length :
    firstPropertyValue (recursivelyBuildAst none []
        (some (.map 0 4 [.mapping 0 4 (.scalar 0 1 "a" true) none])))
      = some (.null (some []) 0 none)
    ∧ (firstPropertyValue (recursivelyBuildAst none []
        (some (.map 0 4 [.mapping 0 4 (.scalar 0 1 "a" true) none])))).bind
        AstNode.lengthField
      = none
    ∧ (firstPropertyValue (recursivelyBuildAst none []
        (some (.map 0 4 [.mapping 0 4 (.scalar 0 1 "a" true) none])))).bind
        AstNode.lengthField
      ≠ some 4 := by
  exact ⟨by with_unfolding_all rfl, by with_unfolding_all rfl, by decide⟩

/-- C1 (amended): the trailing-absence-marker drop applies only when the
sequence consists of exactly one item and that item is the absence marker
— the loop counter is never advanced, so the last-slot test
`count === items.length - 1` succeeds only for single-item sequences.  In
every other case, a trailing marker of a longer sequence included, each
absence-marker item is materialized as a Null node whose span is the
enclosing sequence's span, and every other item is built recursively, in
order. -/
theorem c1_amended_absence_marker_items (parent : ParentRef) (path : List Nat) (s e : Int)
    (items : List (Option YamlNode)) :
    recursivelyBuildAst parent path (some (.seq s e items)) =
      some (.array parent s (some (e - s))
        (if soleAbsenceMarker items then []
         else items.enum.map (fun ji =>
           match ji.2 with
           | none => some (.null parent s (some (e - s)))
           | some m => buildNode (some path) (path ++ [ji.1]) m))) := by
  have hseq : buildSeqItems parent path s e 0 (items.length : Int) 0 items
      = (if soleAbsenceMarker items then []
         else items.enum.map (fun ji =>
           match ji.2 with
           | none => some (AstNode.null parent s (some (e - s)))
           | some m => buildNode (some path) (path ++ [ji.1]) m)) := by
    rcases items with _ | ⟨a, rest⟩
    · rw [buildSeqItems.eq_def]
      simp [soleAbsenceMarker]
    · rcases rest with _ | ⟨b, rest⟩
      · cases a with
        | none =>
          rw [buildSeqItems.eq_2]
          rw [if_pos ⟨rfl, by norm_num⟩]
          simp [soleAbsenceMarker]
        | some m =>
          rw [buildSeqItems.eq_3]
          rw [if_neg (by simp)]
          rw [buildSeqItems.eq_def]
          simp [soleAbsenceMarker, List.enum, List.enumFrom]
      · rw [buildSeqItems_no_break parent path s e 0 (((a :: b :: rest).length : Nat) : Int)
          (by simp; omega) (a :: b :: rest) 0]
        have hsole : soleAbsenceMarker (a :: b :: rest) = false := by
          cases a <;> rfl
        rw [hsole, if_neg (by simp)]
        rfl
  have h0 : recursivelyBuildAst parent path (some (YamlNode.seq s e items))
      = buildNode parent path (YamlNode.seq s e items) := rfl
  rw [h0, buildNode.eq_def]
  dsimp only
  rw [hseq]

/-- C1 is false as stated: in a two-item sequence whose last item is the
absence marker, the marker is not dropped — the built array has two item
slots, the second a materialized Null with the sequence's span. -/
theorem c1_counterexample_trailing_marker_kept :
    recursivelyBuildAst none [] (some (.seq 0 9 [some (.scalar 1 2 "a" true), none]))
      = some (.array none 0 (some 9)
          [some (.str (some []) 1 (some 1) (some "a")), some (.null none 0 (some 9))])
    ∧ ((recursivelyBuildAst none [] (some (.seq 0 9 [some (.scalar 1 2 "a" true), none]))).map
        (fun a => a.childSlots.length)) ≠ some 1 := by
  exact ⟨by with_unfolding_all rfl, by decide⟩

/-- C4: when a document's root is absent the error list is non-empty and
its first entry is the structural error — message "Expected a YAML
object, array or literal", span equal to the raw document's full span —
so the structural error precedes every other diagnostic, and conversely a
root is absent only alongside at least one recorded error. -/
theorem c4_structural_error_first (yamlDoc : YamlNode) (docErrors : List YamlError)
    (startPositions : List Nat) (text : String)
    (h : (createJSONDocument yamlDoc docErrors startPositions text).root = none) :
    (createJSONDocument yamlDoc docErrors startPositions text).errors.head? =
      some ⟨"Expected a YAML object, array or literal",
        yamlDoc.startPosition, yamlDoc.endPosition, .undefined⟩
    ∧ (createJSONDocument yamlDoc docErrors startPositions text).errors ≠ [] := by
  simp only [createJSONDocument] at h ⊢
  cases hr : recursivelyBuildAst none [] (some yamlDoc) with
  | some r => rw [hr] at h; simp at h
  | none => simp

/-- C4 witness: a raw document of unhandled kind spanning `[2, 7)` yields
an absent root whose error list starts with the structural error over that
span. -/
theorem c4_structural_error_first_witness :
    (createJSONDocument (.unknown 2 7) [] [] "").root = none
    ∧ ((createJSONDocument (.unknown 2 7) [] [] "").errors.head? =
        some ⟨"Expected a YAML object, array or literal", 2, 7, .undefined⟩
      ∧ (createJSONDocument (.unknown 2 7) [] [] "").errors ≠ []) :=
  ⟨by with_unfolding_all rfl,
    c4_structural_error_first (.unknown 2 7) [] [] "" (by with_unfolding_all rfl)⟩

/-- C5: a plain scalar whose literal text is one of the sixteen YAML-1.1
boolean tokens is built as a Boolean node by the compatibility patch
(overriding the underlying classifier's string default), while the same
text with the plain flag unset takes the default dispatch, which
classifies each of those tokens as a String node holding the text
verbatim. -/
theorem c5_plain_boolean_token_override (parent : ParentRef) (path : List Nat) (s e : Int)
    (value : String) (h : possibleBooleanValues.contains value = true) :
    recursivelyBuildAst parent path (some (.scalar s e value true))
      = some (.boolean parent (parseYamlBoolean value) s (some (e - s)))
    ∧ recursivelyBuildAst parent path (some (.scalar s e value false))
      = some (.str parent s (some (e - s)) (some value)) := by
  have hm : value ∈ possibleBooleanValues := by
    simpa using h
  fin_cases hm <;>
    exact ⟨by with_unfolding_all rfl, by with_unfolding_all rfl⟩

/-- C5 witness: unquoted `yes` is built as Boolean `true`; quoted `yes` is
built as the String `"yes"`. -/
theorem c5_plain_boolean_token_override_witness :
    possibleBooleanValues.contains "yes" = true
    ∧ (recursivelyBuildAst none [] (some (.scalar 0 3 "yes" true))
        = some (.boolean none true 0 (some 3))
      ∧ recursivelyBuildAst none [] (some (.scalar 0 3 "yes" false))
        = some (.str none 0 (some 3) (some "yes"))) :=
  ⟨by decide, c5_plain_boolean_token_override none [] 0 3 "yes" (by decide)⟩

/-- Each child slot of a node the builder constructs holds either a node
whose parent reference designates the constructed composite itself, or a
Null whose parent reference is the composite's own received parent.  `k`
bounds the node size for the induction through anchor chains. -/
theorem buildNode_children_aux :
    ∀ (k : Nat) (n : YamlNode), sizeOf n ≤ k → ∀ (parent : ParentRef) (path : List Nat)
      (b : AstNode), buildNode parent path n = some b →
      ∀ c : AstNode, some c ∈ b.childSlots →
        c.parentRef = some path ∨ (c.isNullNode = true ∧ c.parentRef = parent) := by
  intro k
  induction k with
  | zero =>
    intro n hn
    exfalso
    cases n <;> simp at hn
  | succ k ih =>
    intro n hn parent path b hb
    rw [buildNode.eq_def] at hb
    cases n with
    | map s e ms =>
      simp only [Option.some.injEq] at hb
      subst hb
      intro c hc
      rcases buildMappings_mem ms path 0 (some c) hc with ⟨j, m, hx⟩
      exact Or.inl (buildNode_parentRef_aux (sizeOf m) m le_rfl (some path) (path ++ [j]) c
        hx.symm)
    | mapping s e key value =>
      simp only [Option.some.injEq] at hb
      subst hb
      intro c hc
      simp only [AstNode.childSlots, List.mem_cons, List.not_mem_nil, or_false,
        Option.some.injEq] at hc
      rcases hc with hc | hc
      · subst hc
        exact Or.inl rfl
      · cases value with
        | some v =>
          have hv : buildNode (some path) (path ++ [1]) v = some c := hc.symm
          exact Or.inl (buildNode_parentRef_aux (sizeOf v) v le_rfl (some path)
            (path ++ [1]) c hv)
        | none =>
          have hc' : AstNode.null parent s none = c := Option.some.inj hc.symm
          subst hc'
          exact Or.inr ⟨rfl, rfl⟩
    | seq s e items =>
      simp only [Option.some.injEq] at hb
      subst hb
      intro c hc
      rcases buildSeqItems_mem items parent path s e 0 (items.length : Int) 0 (some c) hc
        with hx | ⟨j, m, hx⟩
      · have hc' : AstNode.null parent s (some (e - s)) = c := Option.some.inj hx.symm
        subst hc'
        exact Or.inr ⟨rfl, rfl⟩
      · exact Or.inl (buildNode_parentRef_aux (sizeOf m) m le_rfl (some path) (path ++ [j]) c
          hx.symm)
    | scalar s e v plain =>
      simp only at hb
      split at hb
      · simp only [Option.some.injEq] at hb; subst hb
        intro c hc; simp [AstNode.childSlots] at hc
      · split at hb <;> simp only [Option.some.injEq] at hb <;> subst hb <;>
          intro c hc <;> simp [AstNode.childSlots] at hc
    | anchorRef s e value =>
      cases value with
      | none =>
        have hb' : AstNode.null parent s (some (e - s)) = b := Option.some.inj hb
        subst hb'
        intro c hc; simp [AstNode.childSlots] at hc
      | some v =>
        have hb' : (buildNode parent path v).getD (.null parent s (some (e - s))) = b :=
          Option.some.inj hb
        cases hv : buildNode parent path v with
        | none =>
          rw [hv] at hb'
          simp only [Option.getD] at hb'; subst hb'
          intro c hc; simp [AstNode.childSlots] at hc
        | some r =>
          rw [hv] at hb'
          simp only [Option.getD] at hb'; subst hb'
          refine ih v ?_ parent path r hv
          simp at hn; omega
    | includeRef s e v =>
      simp only [Option.some.injEq] at hb
      subst hb
      intro c hc; simp [AstNode.childSlots] at hc
    | unknown s e =>
      simp at hb

/-- C7 (amended): each node `recursivelyBuildAst` builds has as parent
reference the designator passed to the building call (`none` only for the
root call of a document); every child slot of the built node holds either
a node whose parent is the constructed composite itself, or a
synthesized/materialized Null — the omitted-mapping-value Null and the
absent-sequence-item Null — whose parent is the composite's own parent
(the received `parent` designator), not the composite holding it. -/
theorem c7_amended_parent_refs (n : YamlNode) (parent : ParentRef) (path : List Nat)
    (b : AstNode) (hb : recursivelyBuildAst parent path (some n) = some b) :
    b.parentRef = parent
    ∧ ∀ c : AstNode, some c ∈ b.childSlots →
        c.parentRef = some path ∨ (c.isNullNode = true ∧ c.parentRef = parent) := by
  have hb' : buildNode parent path n = some b := hb
  exact ⟨buildNode_parentRef_aux (sizeOf n) n le_rfl parent path b hb',
    buildNode_children_aux (sizeOf n) n le_rfl parent path b hb'⟩

/-- C7 witness: the omitted-value mapping built at path `[0]` under parent
`[]` yields a Property whose parent is `[]`, whose key's parent is the
property's own path `[0]`, and whose Null value's parent is `[]`. -/
theorem c7_amended_parent_refs_witness :
    recursivelyBuildAst (some []) [0] (some (.mapping 0 4 (.scalar 0 1 "a" true) none))
      = some (.property (some []) 0 (some 4) (.str (some [0]) 0 (some 1) (some "a"))
          (some (.null (some []) 0 none)))
    ∧ ((AstNode.property (some []) 0 (some 4) (.str (some [0]) 0 (some 1) (some "a"))
          (some (.null (some []) 0 none))).parentRef = some []
      ∧ ∀ c : AstNode, some c ∈ (AstNode.property (some []) 0 (some 4)
            (.str (some [0]) 0 (some 1) (some "a"))
            (some (.null (some []) 0 none))).childSlots →
          c.parentRef = some [0] ∨ (c.isNullNode = true ∧ c.parentRef = some [])) :=
  ⟨by with_unfolding_all rfl,
    c7_amended_parent_refs (.mapping 0 4 (.scalar 0 1 "a" true) none) (some []) [0] _
      (by with_unfolding_all rfl)⟩

/-- C7 is false as stated: the Null synthesized for an omitted mapping
value has the enclosing Object's designator (the property's parent `[]`)
as parent, not the Property holding it (path `[0]`), and the Null
materialized for an absent sequence item has the Array's own parent
(`none` at the root) as parent, not the Array (path `[]`). -/
theorem c7_counterexample_null_parents :
    (firstPropertyValue (recursivelyBuildAst none []
        (some (.map 0 4 [.mapping 0 4 (.scalar 0 1 "a" true) none])))).map AstNode.parentRef
      = some (some [])
    ∧ (firstPropertyValue (recursivelyBuildAst none []
        (some (.map 0 4 [.mapping 0 4 (.scalar 0 1 "a" true) none])))).map AstNode.parentRef
      ≠ some (some [0])
    ∧ (arrayItemAt 1 (recursivelyBuildAst none []
        (some (.seq 0 9 [some (.scalar 1 2 "a" true), none])))).map AstNode.parentRef
      = some none
    ∧ (arrayItemAt 1 (recursivelyBuildAst none []
        (some (.seq 0 9 [some (.scalar 1 2 "a" true), none])))).map AstNode.parentRef
      ≠ some (some ([] : List Nat)) := by
  exact ⟨by with_unfolding_all rfl, by decide, by with_unfolding_all rfl, by decide⟩
